import Mathlib

/-!
Verification development for the BEAM node manager server
(`mcp-beam`).  The TypeScript source is shallowly embedded: JS strings
are Lean `String`s (or `List Char` where character-level reasoning is
needed), the ambient mutable `nodes` / `sshHosts` maps are threaded
explicitly as association lists, and every SSH side effect is recorded
in an explicit trace so that "no remote command is issued" becomes a
statement about that trace.  Numeric timeouts are `Nat` (all values in
the source are small non-negative integers).
-/

namespace Beam

/-- The single-quote character `'` (ASCII 39). -/
def squote : Char := Char.ofNat 39

/-- The backslash character (ASCII 92). -/
def bslash : Char := Char.ofNat 92

/-! ## Shell escaping (source: `shellEscape`, part_002 lines 183-185)

`function shellEscape(s) { return "'" + s.replace(/'/g, "'\\''") + "'"; }`
-/

/-- Body of `shellEscape`: `s.replace(/'/g, "'\\''")` — every single
quote is replaced by the four characters `'`, `\`, `'`, `'`; every
other character is kept. -/
def escQuote : List Char → List Char
  | [] => []
  | c :: cs =>
    if c = squote then squote :: bslash :: squote :: squote :: escQuote cs
    else c :: escQuote cs

/-- `shellEscape` at the character-list level: wrap the replaced body
in single quotes. -/
def shellEscapeL (l : List Char) : List Char :=
  squote :: (escQuote l ++ [squote])

/-- `shellEscape` on strings, exactly as in the source. -/
def shellEscape (s : String) : String :=
  String.mk (shellEscapeL s.data)

/-- Modelled from the spec's words (§4.A): the quoted word is built by
wrapping `s` in `'` and replacing each internal `'` by the
four-character sequence `'\''`, and nothing else.  Used to compare the
source's `shellEscape` against the specification. -/
def quoteSpecBody : List Char → List Char
  | [] => []
  | c :: cs =>
    (if c = squote then [squote, bslash, squote, squote] else [c]) ++ quoteSpecBody cs

/-- Spec-side quoting contract (wrap + replace). -/
def quoteSpec (l : List Char) : List Char :=
  squote :: (quoteSpecBody l ++ [squote])

/-- POSIX shell unquoting of a word, restricted to the constructs a
`shellEscape` output can contain: outside quotes a backslash escapes
the next character and a single quote opens a quoted span; inside a
single-quoted span every character up to the closing quote is literal.
The flag is `true` while inside a single-quoted span.  Returns `none`
for an unterminated quote or a dangling backslash. -/
def unqAux : Bool → List Char → Option (List Char)
  | false, [] => some []
  | false, c :: cs =>
    if c = squote then unqAux true cs
    else if c = bslash then
      match cs with
      | [] => none
      | d :: ds => (unqAux false ds).map (d :: ·)
    else (unqAux false cs).map (c :: ·)
  | true, [] => none
  | true, c :: cs =>
    if c = squote then unqAux false cs
    else (unqAux true cs).map (c :: ·)

/-- POSIX unquoting, starting outside any quote. -/
def posixUnquote (l : List Char) : Option (List Char) :=
  unqAux false l

lemma escQuote_eq_quoteSpecBody (l : List Char) : escQuote l = quoteSpecBody l := by
  induction l with
  | nil => rfl
  | cons c cs ih =>
    by_cases h : c = squote
    · simp [escQuote, quoteSpecBody, h, ih]
    · simp [escQuote, quoteSpecBody, h, ih]

lemma squote_ne_bslash : squote ≠ bslash := by decide

lemma unqAux_false_squote (cs : List Char) :
    unqAux false (squote :: cs) = unqAux true cs := by
  rw [unqAux.eq_def]; simp

lemma unqAux_false_bslash (d : Char) (ds : List Char) :
    unqAux false (bslash :: d :: ds) = (unqAux false ds).map (d :: ·) := by
  rw [unqAux.eq_def]; simp [show bslash ≠ squote by decide]

lemma unqAux_true_squote (cs : List Char) :
    unqAux true (squote :: cs) = unqAux false cs := by
  rw [unqAux.eq_def]; simp

lemma unqAux_true_other {c : Char} (h : c ≠ squote) (cs : List Char) :
    unqAux true (c :: cs) = (unqAux true cs).map (c :: ·) := by
  rw [unqAux.eq_def]; simp [h]

lemma unqAux_escQuote (l rest : List Char) :
    unqAux true (escQuote l ++ squote :: rest) =
      (unqAux false rest).map (l ++ ·) := by
  induction l with
  | nil =>
    rw [show escQuote [] = [] from rfl, List.nil_append, unqAux_true_squote]
    cases unqAux false rest <;> simp
  | cons c cs ih =>
    by_cases h : c = squote
    · subst h
      rw [show escQuote (squote :: cs) = squote :: bslash :: squote :: squote :: escQuote cs by
            simp [escQuote]]
      rw [List.cons_append, List.cons_append, List.cons_append, List.cons_append,
        unqAux_true_squote, unqAux_false_bslash, unqAux_false_squote, ih, Option.map_map]
      cases unqAux false rest <;> simp
    · rw [show escQuote (c :: cs) = c :: escQuote cs by simp [escQuote, h]]
      rw [List.cons_append, unqAux_true_other h, ih, Option.map_map]
      cases unqAux false rest <;> simp

/-- **C3.** For every character string `s` (including embedded single
quotes, spaces and shell metacharacters), `shellEscape s` is exactly
the single POSIX single-quoted word obtained by wrapping `s` in `'`
and replacing each internal `'` by the four-character sequence `'\''`
and nothing else; consequently POSIX shell-unquoting of
`shellEscape s` reproduces `s` character-for-character. -/
theorem shellEscape_quoteSpec_roundTrip :
    ∀ l : List Char,
      shellEscapeL l = quoteSpec l ∧
      posixUnquote (shellEscapeL l) = some l ∧
      ∀ s : String, (shellEscape s).data = shellEscapeL s.data := by
  intro l
  refine ⟨?_, ?_, fun s => rfl⟩
  · simp [shellEscapeL, quoteSpec, escQuote_eq_quoteSpecBody]
  · show unqAux false (squote :: (escQuote l ++ [squote])) = some l
    rw [unqAux_false_squote, show ([squote] : List Char) = squote :: [] from rfl,
      unqAux_escQuote]
    simp [unqAux]

/-! ## Atom-name validation (source: `atomNameRegex`, part_002 line 573)

`const atomNameRegex = /^[a-zA-Z_][a-zA-Z0-9_.:]*$/;`
-/

/-- First character class of the atom regex: `[a-zA-Z_]`. -/
def isAtomStart (c : Char) : Bool := c.isAlpha || c = '_'

/-- Tail character class of the atom regex: `[a-zA-Z0-9_.:]`. -/
def isAtomChar (c : Char) : Bool := c.isAlphanum || c = '_' || c = '.' || c = ':'

/-- `atomNameRegex.test s`: the whole string is one start character
followed by tail characters. -/
def atomNameOk (s : String) : Bool :=
  match s.data with
  | [] => false
  | c :: cs => isAtomStart c && cs.all isAtomChar

/-! ## SSH host configuration parsing (source: `parseSSHHosts`, part_002 lines 41-87)

Entry format `name:user@host[:port][:erlPath:elixirPath]`, split on
commas; character-level helpers mirror the JS string primitives used
(`trim`, `indexOf` + `slice`, `split(":")`, `/^\d+$/`, `parseInt`). -/

/-- JS `String.prototype.split` with a one-character separator:
always returns at least one (possibly empty) piece. -/
def splitOnChar (sep : Char) : List Char → List (List Char)
  | [] => [[]]
  | x :: xs =>
    if x = sep then [] :: splitOnChar sep xs
    else
      match splitOnChar sep xs with
      | [] => [[x]]
      | y :: ys => (x :: y) :: ys

/-- Whitespace recognised by the model of JS `trim`. -/
def isSpaceJS (c : Char) : Bool := c = ' ' || c = '\t' || c = '\n' || c = '\r'

/-- JS `String.prototype.trim` (restricted to ASCII whitespace). -/
def trimChars (l : List Char) : List Char :=
  ((l.dropWhile isSpaceJS).reverse.dropWhile isSpaceJS).reverse

/-- `indexOf sep` + the two `slice`s around it: `some (before, after)`
splits at the first occurrence of `sep`; `none` when `sep` is absent
(JS `indexOf` returning `-1`). -/
def splitFirstAt (sep : Char) : List Char → Option (List Char × List Char)
  | [] => none
  | c :: cs =>
    if c = sep then some ([], cs)
    else (splitFirstAt sep cs).map (fun r => (c :: r.1, r.2))

/-- JS `parseInt(s, 10)` on a string already known to match `/^\d+$/`. -/
def digitsToNat (l : List Char) : Nat :=
  l.foldl (fun a c => a * 10 + (c.toNat - ('0').toNat)) 0

/-- One parsed `SSH_HOSTS` entry (the fields of `SSHHostConfig` that
`parseSSHHosts` fills in; `remoteShortHost` starts empty and
`connection` null, so they are omitted here). -/
structure HostEntry where
  label : List Char
  user : List Char
  hostname : List Char
  port : Nat
  erlPath : List Char
  elixirPath : List Char
deriving DecidableEq

/-- JS `parts[i] || dflt`: a missing or empty piece falls back to the
default. -/
def getPath (parts : List (List Char)) (i : Nat) (dflt : List Char) : List Char :=
  match parts.get? i with
  | some p => if p = [] then dflt else p
  | none => dflt

/-- One iteration of the `parseSSHHosts` loop body: trim the entry,
skip it when empty, when it has no `:`, or when the field after the
label has no `@`; otherwise read `user@host`, an optional all-digit
port (default 22) and the optional binary paths (defaults `erl` /
`elixir`). -/
def parseEntry (entry : List Char) : Option HostEntry :=
  let t := trimChars entry
  if t = [] then none
  else
    match splitOnChar ':' t with
    | labelP :: uh :: more =>
      match splitFirstAt '@' uh with
      | none => none
      | some (user, hostname) =>
        let parts := uh :: more
        let po : Nat × Nat :=
          match more.head? with
          | some p => if p ≠ [] ∧ p.all Char.isDigit then (digitsToNat p, 2) else (22, 1)
          | none => (22, 1)
        some
          { label := labelP
            user := user
            hostname := hostname
            port := po.1
            erlPath := getPath parts po.2 (("erl").data)
            elixirPath := getPath parts (po.2 + 1) (("elixir").data) }
    | _ => none

/-- The whole of `parseSSHHosts` applied to the comma-separated entry
list: entries that parse are kept (`sshHosts.set`), the rest are
skipped. -/
def parseSSHHostsList (entries : List (List Char)) : List HostEntry :=
  entries.filterMap parseEntry

/-- `parseSSHHosts` from the `SSH_HOSTS` environment string. -/
def parseSSHHosts (env : String) : List HostEntry :=
  parseSSHHostsList ((env.splitOn (",")).map String.data)

lemma splitOnChar_ne_nil (sep : Char) (l : List Char) : splitOnChar sep l ≠ [] := by
  cases l with
  | nil => simp [splitOnChar]
  | cons x xs =>
    rw [splitOnChar]
    by_cases h : x = sep
    · simp [h]
    · simp only [if_neg h]
      cases splitOnChar sep xs <;> simp

lemma splitOnChar_of_not_mem {sep : Char} {l : List Char} (h : sep ∉ l) :
    splitOnChar sep l = [l] := by
  induction l with
  | nil => rfl
  | cons x xs ih =>
    have hx : ¬ x = sep := fun hxx => h (hxx ▸ List.mem_cons_self x xs)
    rw [splitOnChar, if_neg hx, ih (fun hm => h (List.mem_cons_of_mem x hm))]

lemma splitOnChar_append (sep : Char) (a b : List Char) :
    splitOnChar sep (a ++ sep :: b) = splitOnChar sep a ++ splitOnChar sep b := by
  induction a with
  | nil => simp [splitOnChar]
  | cons x xs ih =>
    by_cases h : x = sep
    · subst h
      rw [List.cons_append, splitOnChar, if_pos rfl, ih, splitOnChar, if_pos rfl,
        List.cons_append]
    · rw [List.cons_append, splitOnChar, if_neg h, ih, splitOnChar, if_neg h]
      have hne := splitOnChar_ne_nil sep xs
      cases hx : splitOnChar sep xs with
      | nil => exact absurd hx hne
      | cons y ys => simp

lemma dropWhile_eq_self_of_forall {p : Char → Bool} {l : List Char}
    (h : ∀ c ∈ l, p c = false) : l.dropWhile p = l := by
  cases l with
  | nil => rfl
  | cons a l => rw [List.dropWhile_cons]; simp [h a (by simp)]

lemma trimChars_eq_self {l : List Char} (h : ∀ c ∈ l, isSpaceJS c = false) :
    trimChars l = l := by
  unfold trimChars
  rw [dropWhile_eq_self_of_forall h,
    dropWhile_eq_self_of_forall (fun c hc => h c (List.mem_reverse.mp hc)),
    List.reverse_reverse]

lemma splitFirstAt_of_not_mem {sep : Char} {l : List Char} (h : sep ∉ l) :
    splitFirstAt sep l = none := by
  induction l with
  | nil => rfl
  | cons x xs ih =>
    have hx : ¬ x = sep := fun hxx => h (hxx ▸ List.mem_cons_self x xs)
    rw [splitFirstAt, if_neg hx, ih (fun hm => h (List.mem_cons_of_mem x hm))]
    rfl

lemma splitFirstAt_append {sep : Char} {a : List Char} (b : List Char) (h : sep ∉ a) :
    splitFirstAt sep (a ++ sep :: b) = some (a, b) := by
  induction a with
  | nil => simp [splitFirstAt]
  | cons x xs ih =>
    have hx : ¬ x = sep := fun hxx => h (hxx ▸ List.mem_cons_self x xs)
    rw [List.cons_append, splitFirstAt, if_neg hx,
      ih (fun hm => h (List.mem_cons_of_mem x hm))]
    rfl

lemma digit_not_colon {p : List Char} (hd : p.all Char.isDigit = true) : ':' ∉ p := by
  intro hm
  have := List.all_eq_true.mp hd _ hm
  simp [Char.isDigit] at this

lemma not_colon_mem_userHost {user host : List Char} (hU : ':' ∉ user) (hH : ':' ∉ host) :
    ':' ∉ user ++ '@' :: host := by
  intro hm
  rcases List.mem_append.mp hm with h1 | h2
  · exact hU h1
  · rcases List.mem_cons.mp h2 with h3 | h4
    · exact absurd h3 (by decide)
    · exact hH h4

/-- **C7.** Parsing each comma-separated `SSH_HOSTS` entry: an entry
with no `:` in its trimmed form, or whose first field after the label
contains no `@`, is skipped without aborting the rest, so a well-formed
entry anywhere in the list is still accepted (concretely, `"foo"` and
`"foo:"` are skipped); when the field after `user@host` is a run of
digits it is parsed as the port, otherwise the port is 22; a missing
`erlPath` defaults to `erl` and a missing `elixirPath` to `elixir`. -/
theorem parseSSHHosts_entry_behaviour :
    (∀ e : List Char, ':' ∉ trimChars e → parseEntry e = none) ∧
    (∀ (e labelP uh : List Char) (more : List (List Char)),
      splitOnChar ':' (trimChars e) = labelP :: uh :: more → '@' ∉ uh →
      parseEntry e = none) ∧
    (∀ (bad : List Char) (rest : List (List Char)), parseEntry bad = none →
      parseSSHHostsList (bad :: rest) = parseSSHHostsList rest) ∧
    (∀ (pre rest : List (List Char)) (e : List Char) (cfg : HostEntry),
      parseEntry e = some cfg → cfg ∈ parseSSHHostsList (pre ++ e :: rest)) ∧
    parseEntry (("foo").data) = none ∧
    parseEntry (("foo:").data) = none ∧
    (∀ label user host p : List Char,
      (∀ c ∈ label ++ ':' :: ((user ++ '@' :: host) ++ ':' :: p), isSpaceJS c = false) →
      ':' ∉ label → ':' ∉ user → ':' ∉ host → '@' ∉ user →
      p ≠ [] → p.all Char.isDigit = true →
      parseEntry (label ++ ':' :: ((user ++ '@' :: host) ++ ':' :: p)) =
        some ⟨label, user, host, digitsToNat p, ("erl").data, ("elixir").data⟩) ∧
    (∀ label user host : List Char,
      (∀ c ∈ label ++ ':' :: (user ++ '@' :: host), isSpaceJS c = false) →
      ':' ∉ label → ':' ∉ user → ':' ∉ host → '@' ∉ user →
      parseEntry (label ++ ':' :: (user ++ '@' :: host)) =
        some ⟨label, user, host, 22, ("erl").data, ("elixir").data⟩) ∧
    (∀ label user host q : List Char,
      (∀ c ∈ label ++ ':' :: ((user ++ '@' :: host) ++ ':' :: q), isSpaceJS c = false) →
      ':' ∉ label → ':' ∉ user → ':' ∉ host → '@' ∉ user →
      q ≠ [] → q.all Char.isDigit = false → ':' ∉ q →
      parseEntry (label ++ ':' :: ((user ++ '@' :: host) ++ ':' :: q)) =
        some ⟨label, user, host, 22, q, ("elixir").data⟩) := by
  refine ⟨?_, ?_, ?_, ?_, by decide, by decide, ?_, ?_, ?_⟩
  · intro e h
    by_cases ht : trimChars e = []
    · simp [parseEntry, ht]
    · simp [parseEntry, ht, splitOnChar_of_not_mem h]
  · intro e labelP uh more hsp hA
    by_cases ht : trimChars e = []
    · simp [parseEntry, ht]
    · simp [parseEntry, ht, hsp, splitFirstAt_of_not_mem hA]
  · intro bad rest h
    simp [parseSSHHostsList, List.filterMap_cons, h]
  · intro pre rest e cfg h
    exact List.mem_filterMap.mpr ⟨e, List.mem_append_right _ (List.mem_cons_self _ _), h⟩
  · intro label user host p hS hL hU hH hA hpne hpd
    have hsplit : splitOnChar ':' (label ++ ':' :: ((user ++ '@' :: host) ++ ':' :: p))
        = [label, user ++ '@' :: host, p] := by
      rw [splitOnChar_append, splitOnChar_append, splitOnChar_of_not_mem hL,
        splitOnChar_of_not_mem (not_colon_mem_userHost hU hH),
        splitOnChar_of_not_mem (digit_not_colon hpd)]
      rfl
    have hsplit2 : splitOnChar ':' (label ++ ':' :: (user ++ '@' :: (host ++ ':' :: p)))
        = [label, user ++ '@' :: host, p] := by simpa using hsplit
    have hS2 : ∀ c ∈ label ++ ':' :: (user ++ '@' :: (host ++ ':' :: p)),
        isSpaceJS c = false := by simpa using hS
    simp [parseEntry, trimChars_eq_self hS2, hsplit2, splitFirstAt_append host hA,
      hpne, hpd, getPath]
  · intro label user host hS hL hU hH hA
    have hsplit : splitOnChar ':' (label ++ ':' :: (user ++ '@' :: host))
        = [label, user ++ '@' :: host] := by
      rw [splitOnChar_append, splitOnChar_of_not_mem hL,
        splitOnChar_of_not_mem (not_colon_mem_userHost hU hH)]
      rfl
    have hne : label ++ ':' :: (user ++ '@' :: host) ≠ [] := by simp
    simp [parseEntry, trimChars_eq_self hS, hne, hsplit, splitFirstAt_append host hA,
      getPath]
  · intro label user host q hS hL hU hH hA hqne hqd hqc
    have hsplit : splitOnChar ':' (label ++ ':' :: ((user ++ '@' :: host) ++ ':' :: q))
        = [label, user ++ '@' :: host, q] := by
      rw [splitOnChar_append, splitOnChar_append, splitOnChar_of_not_mem hL,
        splitOnChar_of_not_mem (not_colon_mem_userHost hU hH),
        splitOnChar_of_not_mem hqc]
      rfl
    have hsplit2 : splitOnChar ':' (label ++ ':' :: (user ++ '@' :: (host ++ ':' :: q)))
        = [label, user ++ '@' :: host, q] := by simpa using hsplit
    have hS2 : ∀ c ∈ label ++ ':' :: (user ++ '@' :: (host ++ ':' :: q)),
        isSpaceJS c = false := by simpa using hS
    simp [parseEntry, trimChars_eq_self hS2, hsplit2, splitFirstAt_append host hA,
      hqne, hqd, getPath]

/-- Witness for C7: the entry `a:u@h:2375` parses with port 2375 and
default binary paths. -/
theorem parseSSHHosts_entry_behaviour_witness :
    parseEntry (("a").data ++ ':' ::
        ((("u").data ++ '@' :: ("h").data) ++ ':' :: ("2375").data))
      = some ⟨("a").data, ("u").data, ("h").data, digitsToNat (("2375").data),
          ("erl").data, ("elixir").data⟩ :=
  parseSSHHosts_entry_behaviour.2.2.2.2.2.2.1 (("a").data) (("u").data) (("h").data)
    (("2375").data) (by decide) (by decide) (by decide) (by decide) (by decide)
    (by decide) (by decide)

/-! ## Data model (source: `SSHHostConfig`, `ManagedNode`, part_002 lines 26-35, 197-208)

The ambient `sshHosts` and `nodes` maps are threaded explicitly.  The
`connection` handle of a host is represented by the connect oracle of
each operation; a `ClientChannel` is represented by a numeric identity.
-/

/-- `type` field of a managed node. -/
inductive NodeType where
  | erlang
  | elixir
deriving DecidableEq

/-- `status` field of a managed node. -/
inductive NodeStatus where
  | starting
  | running
  | error
  | stopped
deriving DecidableEq

/-- One entry of the `sshHosts` map (the `connection` handle is
modelled by the per-operation connect oracle). -/
structure SSHHostConfig where
  label : String
  user : String
  hostname : String
  port : Nat
  erlPath : String
  elixirPath : String
  remoteShortHost : String
deriving DecidableEq

/-- One entry of the `nodes` map; `channelId` stands for the identity
of the long-running SSH channel. -/
structure ManagedNode where
  channelId : Nat
  hostLabel : String
  remoteShortHost : String
  type : NodeType
  startedAt : Nat
  cookie : String
  name : String
  status : NodeStatus
deriving DecidableEq

/-- The `nodes` registry: a JS `Map` as an association list in
insertion order. -/
abbrev Registry : Type := List (String × ManagedNode)

/-- JS `Map.get`. -/
def lookupKey {α : Type} : List (String × α) → String → Option α
  | [], _ => none
  | e :: rest, k => if e.1 = k then some e.2 else lookupKey rest k

/-- JS `Map.set`: overwrite in place, else append. -/
def mapSet : Registry → String → ManagedNode → Registry
  | [], k, v => [(k, v)]
  | e :: rest, k, v => if e.1 = k then (k, v) :: rest else e :: mapSet rest k v

/-- JS `Map.delete`. -/
def mapDelete : Registry → String → Registry
  | [], _ => []
  | e :: rest, k => if e.1 = k then mapDelete rest k else e :: mapDelete rest k

/-- In-place mutation `nodes.get(name).status = st` (a no-op when the
name is absent). -/
def setStatus : Registry → String → NodeStatus → Registry
  | [], _, _ => []
  | e :: rest, k, st =>
    if e.1 = k then (e.1, { e.2 with status := st }) :: rest
    else e :: setStatus rest k st

/-- Process-wide configuration: the parsed `sshHosts` map and
`SSH_PRIVATE_KEY`. -/
structure Config where
  sshHosts : List (String × SSHHostConfig)
  privateKey : String
deriving DecidableEq

/-- `configGuard()` passes iff at least one host is configured and the
private key is non-empty (part_002 lines 226-231). -/
def configOk (cfg : Config) : Bool :=
  !cfg.sshHosts.isEmpty && !(cfg.privateKey == (""))

/-- `getDefaultHostLabel()`: first key of `sshHosts` (part_002 lines
210-213); the `""` default models the `!` assertion, unreachable under
the configuration guard. -/
def defaultHostLabel (cfg : Config) : String :=
  ((cfg.sshHosts.head?).map (·.1)).getD ("")

/-- JS `a || b` on strings: an absent or empty argument falls back. -/
def jsOr (o : Option String) (dflt : String) : String :=
  match o with
  | some s => if s = ("") then dflt else s
  | none => dflt

/-- Error taxonomy of the operation surface (spec §7). -/
inductive OpError where
  | configMissing
  | unknownHost
  | nameTaken
  | sshDial
  | sshSpawn
  | nodeUnknown
  | nodeBadState
  | badAtomName
  | badTimeout
  | writeFailed
  | remoteEvalError
deriving DecidableEq

/-- An SSH side effect issued by an operation, with the arguments the
source hands to the transport / RPC helpers. -/
inductive SshOp where
  | execStream (command : String)
  | execSimple (command : String) (timeout : Nat)
  | writeFile (hostLabel remotePath content : String)
  | rpcPrinted (target cookie erlCode hostLabel : String) (timeout : Nat)
  | rpcRaw (target cookie erlCode hostLabel : String) (timeout : Nat)
deriving DecidableEq

deriving instance DecidableEq for Except

/-- Result, final registry and SSH trace of one operation. -/
structure OpOutcome where
  result : Except OpError Unit
  registry : Registry
  sshOps : List SshOp
deriving DecidableEq

/-! ## Command construction (source: `pathPrefixFor`, part_002 lines 187-193) -/

/-- `erlPath.includes("/") ? erlPath.slice(0, erlPath.lastIndexOf("/")) : ""`. -/
def dirOfErlPath (p : String) : String :=
  match splitFirstAt '/' p.data.reverse with
  | some r => String.mk r.2.reverse
  | none => String.mk []

/-- `pathPrefixFor`: a `PATH=` prefix making `erl` discoverable. -/
def pathPrefixFor (hc : SSHHostConfig) : String :=
  let dir := dirOfErlPath hc.erlPath
  if dir = ("") then ("") else ("PATH=") ++ shellEscape dir ++ (":$PATH ")

/-- The long-running launch command of `start-node` / `restart-node`
(part_002 lines 339-345): the caller-supplied name and cookie are
interpolated verbatim. -/
def buildStartCommand (hc : SSHHostConfig) (name cookie : String) (ty : NodeType) : String :=
  match ty with
  | .erlang =>
    pathPrefixFor hc ++ hc.erlPath ++ (" -sname ") ++ name ++ (" -setcookie ")
      ++ cookie ++ (" -noshell")
  | .elixir =>
    pathPrefixFor hc ++ hc.elixirPath ++ (" --sname ") ++ name ++ (" --cookie ")
      ++ cookie ++ (" --no-halt")

/-! ## Remote evaluation expressions

The Erlang expression templates of the tools.  Multiline templates in
the source are collapsed with `.replace(/\n/g, " ")`; the transcriptions
below normalise the resulting runs of indentation spaces to single
spaces, which no claim depends on.  The single-line `call-genserver`
template is transcribed exactly. -/

/-- `.replace(/\n/g, " ")`. -/
def replaceNewlines (s : String) : String :=
  String.mk (s.data.map (fun c => if c = '\n' then ' ' else c))

/-- Expression of `call-genserver` (part_002 line 733):
`gen_server:call('<server>', <message>, <callTimeout>)` with the
newline replacement applied to the interpolated template. -/
def callGsCode (serverName message : String) (callTimeout : Nat) : String :=
  replaceNewlines
    (("gen_server:call(\x27") ++ serverName ++ ("\x27, ") ++ message ++ (", ")
      ++ toString callTimeout ++ (")"))

/-- Expression of `stop-genserver` (part_002 line 768). -/
def stopGsCode (serverName : String) : String :=
  replaceNewlines (("gen_server:stop(\x27") ++ serverName ++ ("\x27, normal, 5000)"))

/-- Expression of `start-genserver` (part_002 lines 679-694), with or
without `{local, Name}` registration. -/
def startGsCode (module args : String) (registerAs : Option String) : String :=
  match registerAs with
  | some r =>
    (" case gen_server:start(\x7blocal, \x27") ++ r ++ ("\x27\x7d, \x27") ++ module
      ++ ("\x27, ") ++ args
      ++ (", []) of \x7bok, Pid\x7d -> \x7bok, Pid, \x27") ++ r
      ++ ("\x27\x7d; \x7berror, Reason\x7d -> \x7berror, Reason\x7d end ")
  | none =>
    (" case gen_server:start(\x27") ++ module ++ ("\x27, ") ++ args
      ++ (", []) of \x7bok, Pid\x7d -> \x7bok, Pid\x7d; \x7berror, Reason\x7d -> \x7berror, Reason\x7d end ")

/-- Expression of `inspect-node` (part_002 lines 504-532): fold over
`erlang:registered()` printing one pipe-delimited line per process. -/
def inspectErlCode : String :=
  (" Names = erlang:registered(), lists:foreach(fun(N) -> Pid = whereis(N), ")
    ++ ("case Pid of undefined -> ok; _ -> Info = erlang:process_info(Pid, [status, message_queue_len, memory, current_function]), ")
    ++ ("case Info of undefined -> ok; _ -> Status = proplists:get_value(status, Info), ")
    ++ ("MQL = proplists:get_value(message_queue_len, Info), Mem = proplists:get_value(memory, Info), ")
    ++ ("\x7bM, F, A\x7d = proplists:get_value(current_function, Info), ")
    ++ ("io:format(\"~s|~s|~p|~p|~s:~s/~p~n\", [atom_to_list(N), atom_to_list(Status), MQL, Mem, atom_to_list(M), atom_to_list(F), A]) end end end, Names), ok ")

/-- Erlang-path expression of `deploy-module` (part_002 lines 611-622). -/
def deployErlCodeErlang (remotePath : String) : String :=
  (" case compile:file(\"") ++ remotePath ++ ("\", [binary, return_errors]) of ")
    ++ ("\x7bok, Mod, Bin\x7d -> \x7bmodule, Mod\x7d = code:load_binary(Mod, \"") ++ remotePath
    ++ ("\", Bin), Exports = Mod:module_info(exports), file:delete(\"") ++ remotePath
    ++ ("\"), \x7bok, Mod, Exports\x7d; \x7berror, Errors, _Warnings\x7d -> file:delete(\"")
    ++ remotePath ++ ("\"), \x7berror, Errors\x7d end ")

/-- Elixir-path expression of `deploy-module` (part_002 lines 625-639). -/
def deployErlCodeElixir (remotePath : String) : String :=
  (" try Modules = \x27Elixir.Code\x27:compile_file(<<\"") ++ remotePath
    ++ ("\">>), file:delete(\"") ++ remotePath
    ++ ("\"), Results = lists:map(fun(\x7bMod, _Bin\x7d) -> Exports = Mod:module_info(exports), \x7bMod, Exports\x7d end, Modules), \x7bok, Results\x7d ")
    ++ ("catch Class:Reason -> file:delete(\"") ++ remotePath
    ++ ("\"), \x7berror, \x7bClass, Reason\x7d\x7d end ")

/-- Expression polled by `list-nodes` for each running node. -/
def processCountCode : String := ("erlang:system_info(process_count)")

/-! ## Operations -/

/-- Per-call I/O oracle for `start-node` / `restart-node`: outcome of
`getSSHConnection`, the cookie `defaultCookie` resolves to, outcome of
`sshExecLongRunning` (the fresh channel identity on success), and
`Date.now()`. -/
structure StartIo where
  connect : Except String Unit
  defaultCookie : String
  spawn : Except String Nat
  now : Nat

/-- `start-node` (part_002 lines 304-394), up to the synchronous
return; the close-handler registration and the 2 s probe are modelled
separately by `deliverClose` and `probeCallback`. -/
def startNode (cfg : Config) (σ : Registry) (name : String) (ty : NodeType)
    (cookieArg hostArg : Option String) (io : StartIo) : OpOutcome :=
  if configOk cfg = false then ⟨.error .configMissing, σ, []⟩
  else
    let hostLabel := jsOr hostArg (defaultHostLabel cfg)
    match lookupKey cfg.sshHosts hostLabel with
    | none => ⟨.error .unknownHost, σ, []⟩
    | some hc =>
      if (lookupKey σ name).isSome then ⟨.error .nameTaken, σ, []⟩
      else
        match io.connect with
        | .error _ => ⟨.error .sshDial, σ, []⟩
        | .ok _ =>
          let cookie := jsOr cookieArg io.defaultCookie
          let command := buildStartCommand hc name cookie ty
          match io.spawn with
          | .error _ => ⟨.error .sshSpawn, σ, [.execStream command]⟩
          | .ok ch =>
            ⟨.ok (),
              mapSet σ name
                ⟨ch, hostLabel, hc.remoteShortHost, ty, io.now, cookie, name, .starting⟩,
              [.execStream command]⟩

/-- The channel close handler registered by `start-node` /
`restart-node` (part_002 lines 366-369): it captures only the node
NAME, so on delivery it mutates whatever entry currently has that
name. -/
def deliverClose (σ : Registry) (name : String) : Registry :=
  setStatus σ name .stopped

/-- Outcome of the 2 s start probe's SSH ping: `pong`, `pang`, or a
thrown SSH error. -/
inductive ProbeOutcome where
  | pong
  | pang
  | sshFailure
deriving DecidableEq

/-- Fire-time check of the probe callback (part_002 lines 373-374):
bail out when the entry is gone or already `stopped`. -/
def probeGate (σ : Registry) (name : String) : Bool :=
  match lookupKey σ name with
  | none => false
  | some n => decide (n.status ≠ NodeStatus.stopped)

/-- Resolution of the probe (part_002 lines 382-389): `pong`/`pang`
mutate only a `starting` entry, but the catch branch sets `error` on
whatever entry exists. -/
def probeResolve (σ : Registry) (name : String) (o : ProbeOutcome) : Registry :=
  match o with
  | .pong =>
    match lookupKey σ name with
    | some n => if n.status = .starting then setStatus σ name .running else σ
    | none => σ
  | .pang =>
    match lookupKey σ name with
    | some n => if n.status = .starting then setStatus σ name .error else σ
    | none => σ
  | .sshFailure =>
    match lookupKey σ name with
    | some _ => setStatus σ name .error
    | none => σ

/-- The whole probe callback: `σfire` is the registry when the 2 s
timer fires, `σres` the registry when the SSH ping resolves or throws
(they may differ, the probe awaits in between). -/
def probeCallback (σfire σres : Registry) (name : String) (o : ProbeOutcome) : Registry :=
  if probeGate σfire name then probeResolve σres name o else σres

/-- `stop-node` (part_002 lines 396-419): close the channel, remove
the entry synchronously. -/
def stopNode (cfg : Config) (σ : Registry) (name : String) : OpOutcome :=
  if configOk cfg = false then ⟨.error .configMissing, σ, []⟩
  else
    match lookupKey σ name with
    | none => ⟨.error .nodeUnknown, σ, []⟩
    | some _ => ⟨.ok (), mapDelete σ name, []⟩

/-- `restart-node` (part_002 lines 781-873): stop, then re-launch with
the stored `(hostLabel, type, cookie)`. -/
def restartNode (cfg : Config) (σ : Registry) (name : String) (io : StartIo) : OpOutcome :=
  if configOk cfg = false then ⟨.error .configMissing, σ, []⟩
  else
    match lookupKey σ name with
    | none => ⟨.error .nodeUnknown, σ, []⟩
    | some node =>
      match lookupKey cfg.sshHosts node.hostLabel with
      | none => ⟨.error .unknownHost, σ, []⟩
      | some hc =>
        let σdel := mapDelete σ name
        match io.connect with
        | .error _ => ⟨.error .sshDial, σdel, []⟩
        | .ok _ =>
          let command := buildStartCommand hc name node.cookie node.type
          match io.spawn with
          | .error _ => ⟨.error .sshSpawn, σdel, [.execStream command]⟩
          | .ok ch =>
            ⟨.ok (),
              mapSet σdel name
                ⟨ch, node.hostLabel, hc.remoteShortHost, node.type, io.now,
                  node.cookie, name, .starting⟩,
              [.execStream command]⟩

/-- `inspect-node` (part_002 lines 478-568) up to the RPC result. -/
def inspectNode (cfg : Config) (σ : Registry) (name : String)
    (rpc : Except String String) : OpOutcome :=
  if configOk cfg = false then ⟨.error .configMissing, σ, []⟩
  else
    match lookupKey σ name with
    | none => ⟨.error .nodeUnknown, σ, []⟩
    | some node =>
      if node.status ≠ NodeStatus.running then ⟨.error .nodeBadState, σ, []⟩
      else
        let op := SshOp.rpcRaw name node.cookie inspectErlCode node.hostLabel 10000
        match rpc with
        | .error _ => ⟨.error .remoteEvalError, σ, [op]⟩
        | .ok _ => ⟨.ok (), σ, [op]⟩

/-- `deploy-module` (part_002 lines 575-653): base64 upload, then
compile-and-load; on RPC failure a cleanup `rm -f` is attempted. -/
def deployModule (cfg : Config) (σ : Registry) (name code : String)
    (language : NodeType) (now : Nat) (writeRes : Except String Unit)
    (rpc : Except String String) : OpOutcome :=
  if configOk cfg = false then ⟨.error .configMissing, σ, []⟩
  else
    match lookupKey σ name with
    | none => ⟨.error .nodeUnknown, σ, []⟩
    | some node =>
      if node.status ≠ NodeStatus.running then ⟨.error .nodeBadState, σ, []⟩
      else
        let ext := match language with | .erlang => ("erl") | .elixir => ("ex")
        let remotePath := ("/tmp/mcp_deploy_") ++ toString now ++ (".") ++ ext
        let wOp := SshOp.writeFile node.hostLabel remotePath code
        match writeRes with
        | .error _ => ⟨.error .writeFailed, σ, [wOp]⟩
        | .ok _ =>
          let erlCode := match language with
            | .erlang => deployErlCodeErlang remotePath
            | .elixir => deployErlCodeElixir remotePath
          let rOp := SshOp.rpcPrinted name node.cookie erlCode node.hostLabel 10000
          match rpc with
          | .error _ =>
            ⟨.error .remoteEvalError, σ,
              [wOp, rOp, .execSimple (("rm -f ") ++ shellEscape remotePath) 5000]⟩
          | .ok _ => ⟨.ok (), σ, [wOp, rOp]⟩

/-- `start-genserver` (part_002 lines 655-705).  The `module` and
`registerAs` inputs are validated against `atomNameRegex` by the zod
schema before the handler runs. -/
def startGenserver (cfg : Config) (σ : Registry) (name module args : String)
    (registerAs : Option String) (rpc : Except String String) : OpOutcome :=
  if atomNameOk module = false then ⟨.error .badAtomName, σ, []⟩
  else if (match registerAs with
           | some r => !atomNameOk r
           | none => false) = true then ⟨.error .badAtomName, σ, []⟩
  else if configOk cfg = false then ⟨.error .configMissing, σ, []⟩
  else
    match lookupKey σ name with
    | none => ⟨.error .nodeUnknown, σ, []⟩
    | some node =>
      if node.status ≠ NodeStatus.running then ⟨.error .nodeBadState, σ, []⟩
      else
        let op := SshOp.rpcPrinted name node.cookie (startGsCode module args registerAs)
          node.hostLabel 10000
        match rpc with
        | .error _ => ⟨.error .remoteEvalError, σ, [op]⟩
        | .ok _ => ⟨.ok (), σ, [op]⟩

/-- `call-genserver` (part_002 lines 707-744).  The `server` input is
regex-validated and `timeout` range-checked by the zod schema; the SSH
timeout handed to `rpcCall` is `max(callTimeout + 5000, 10000)`. -/
def callGenserver (cfg : Config) (σ : Registry) (name server message : String)
    (callTimeout : Nat) (rpc : Except String String) : OpOutcome :=
  if atomNameOk server = false then ⟨.error .badAtomName, σ, []⟩
  else if callTimeout < 1 ∨ 60000 < callTimeout then ⟨.error .badTimeout, σ, []⟩
  else if configOk cfg = false then ⟨.error .configMissing, σ, []⟩
  else
    match lookupKey σ name with
    | none => ⟨.error .nodeUnknown, σ, []⟩
    | some node =>
      if node.status ≠ NodeStatus.running then ⟨.error .nodeBadState, σ, []⟩
      else
        let sshTimeout := max (callTimeout + 5000) 10000
        let op := SshOp.rpcPrinted name node.cookie (callGsCode server message callTimeout)
          node.hostLabel sshTimeout
        match rpc with
        | .error _ => ⟨.error .remoteEvalError, σ, [op]⟩
        | .ok _ => ⟨.ok (), σ, [op]⟩

/-- `stop-genserver` (part_002 lines 746-779). -/
def stopGenserver (cfg : Config) (σ : Registry) (name server : String)
    (rpc : Except String String) : OpOutcome :=
  if atomNameOk server = false then ⟨.error .badAtomName, σ, []⟩
  else if configOk cfg = false then ⟨.error .configMissing, σ, []⟩
  else
    match lookupKey σ name with
    | none => ⟨.error .nodeUnknown, σ, []⟩
    | some node =>
      if node.status ≠ NodeStatus.running then ⟨.error .nodeBadState, σ, []⟩
      else
        let op := SshOp.rpcPrinted name node.cookie (stopGsCode server) node.hostLabel 10000
        match rpc with
        | .error _ => ⟨.error .remoteEvalError, σ, [op]⟩
        | .ok _ => ⟨.ok (), σ, [op]⟩

/-! ## list-nodes (part_002 lines 421-476) -/

/-- JS `parseInt(s, 10)`: skip leading whitespace, optional sign, then
the longest digit prefix; `NaN` (here `none`) when there is none. -/
def parseIntJS (l : List Char) : Option Int :=
  let t := l.dropWhile isSpaceJS
  match t with
  | '-' :: rest =>
    let ds := rest.takeWhile Char.isDigit
    if ds = [] then none else some (-(digitsToNat ds : Int))
  | '+' :: rest =>
    let ds := rest.takeWhile Char.isDigit
    if ds = [] then none else some ((digitsToNat ds : Int))
  | _ =>
    let ds := t.takeWhile Char.isDigit
    if ds = [] then none else some ((digitsToNat ds : Int))

/-- One row of the `list-nodes` view payload. -/
structure NodeView where
  name : String
  type : NodeType
  status : NodeStatus
  startedAt : Nat
  processCount : Option Int
deriving DecidableEq

/-- Result of `list-nodes`: view rows, final registry, SSH trace. -/
structure ListOutcome where
  result : Except OpError (List NodeView)
  registry : Registry
  sshOps : List SshOp
deriving DecidableEq

/-- `list-nodes`: for each entry, query the process count over RPC
only when `status === "running"`; a failed RPC or unparsable output
leaves the count `null`; the registry is never written.  The `oracle`
gives each node's RPC outcome. -/
def listNodes (cfg : Config) (σ : Registry)
    (oracle : String → Except String String) : ListOutcome :=
  if configOk cfg = false then ⟨.error .configMissing, σ, []⟩
  else
    let views := σ.map (fun e =>
      let pc : Option Int :=
        if e.2.status = NodeStatus.running then
          match oracle e.1 with
          | .ok r => parseIntJS r.data
          | .error _ => none
        else none
      ⟨e.1, e.2.type, e.2.status, e.2.startedAt, pc⟩)
    let ops := (σ.filter (fun e => e.2.status = NodeStatus.running)).map
      (fun e => SshOp.rpcPrinted e.1 e.2.cookie processCountCode e.2.hostLabel 10000)
    ⟨.ok views, σ, ops⟩

/-! ## Registry lemmas -/

lemma lookupKey_mapSet_self (σ : Registry) (k : String) (v : ManagedNode) :
    lookupKey (mapSet σ k v) k = some v := by
  induction σ with
  | nil => simp [mapSet, lookupKey]
  | cons e rest ih =>
    by_cases h : e.1 = k
    · simp [mapSet, lookupKey, h]
    · simp [mapSet, lookupKey, h, ih]

lemma lookupKey_mapDelete_self (σ : Registry) (k : String) :
    lookupKey (mapDelete σ k) k = none := by
  induction σ with
  | nil => simp [mapDelete, lookupKey]
  | cons e rest ih =>
    by_cases h : e.1 = k
    · simp [mapDelete, h, ih]
    · simp [mapDelete, lookupKey, h, ih]

lemma mapDelete_of_lookup_none {σ : Registry} {k : String}
    (h : lookupKey σ k = none) : mapDelete σ k = σ := by
  induction σ with
  | nil => rfl
  | cons e rest ih =>
    rw [lookupKey] at h
    by_cases he : e.1 = k
    · simp [he] at h
    · rw [if_neg he] at h
      rw [mapDelete, if_neg he, ih h]

lemma mapDelete_mapSet_of_none {σ : Registry} {k : String} (v : ManagedNode)
    (h : lookupKey σ k = none) : mapDelete (mapSet σ k v) k = σ := by
  induction σ with
  | nil => simp [mapSet, mapDelete]
  | cons e rest ih =>
    rw [lookupKey] at h
    by_cases he : e.1 = k
    · simp [he] at h
    · rw [if_neg he] at h
      rw [mapSet, if_neg he, mapDelete, if_neg he, ih h]

lemma setStatus_of_none {σ : Registry} {k : String} (st : NodeStatus)
    (h : lookupKey σ k = none) : setStatus σ k st = σ := by
  induction σ with
  | nil => rfl
  | cons e rest ih =>
    rw [lookupKey] at h
    by_cases he : e.1 = k
    · simp [he] at h
    · rw [if_neg he] at h
      rw [setStatus, if_neg he, ih h]

lemma lookupKey_setStatus_self (σ : Registry) (k : String) (st : NodeStatus) :
    lookupKey (setStatus σ k st) k =
      (lookupKey σ k).map (fun n => { n with status := st }) := by
  induction σ with
  | nil => simp [setStatus, lookupKey]
  | cons e rest ih =>
    by_cases h : e.1 = k
    · simp [setStatus, lookupKey, h]
    · simp [setStatus, lookupKey, h, ih]

/-! ## Concrete fixtures used by witnesses and counterexamples -/

/-- A sample configured host. -/
def hostA : SSHHostConfig := ⟨("a"), ("u"), ("h"), 22, ("erl"), ("elixir"), ("sh")⟩

/-- A sample configuration passing the guard. -/
def cfgA : Config := ⟨[(("a"), hostA)], ("k")⟩

/-- A per-call oracle where everything succeeds (channel 1, t=100). -/
def ioA : StartIo := ⟨.ok (), ("ck"), .ok 1, 100⟩

/-- A second all-success oracle (channel 2, t=200). -/
def ioB : StartIo := ⟨.ok (), ("ck"), .ok 2, 200⟩

/-- A sample node entry in status `stopped`. -/
def nodeStopped : ManagedNode := ⟨1, ("a"), ("sh"), .erlang, 100, ("ck"), ("w"), .stopped⟩

/-- A sample node entry in status `starting`. -/
def nodeStarting : ManagedNode := ⟨1, ("a"), ("sh"), .erlang, 100, ("ck"), ("w"), .starting⟩

/-- A sample node entry in status `running`. -/
def nodeRunning : ManagedNode := ⟨1, ("a"), ("sh"), .erlang, 100, ("ck"), ("w"), .running⟩

/-! ## Claim theorems -/

/-- **C5.** For every operation targeting a node name (stop-node,
restart-node, inspect-node, deploy-module, start/call/stop-genserver),
given the configuration guard passes (and the schema-validated inputs
are well formed): if no registry entry exists for the name the result
is the NodeUnknown error with no SSH I/O; and for the operations
requiring a running node (inspect-node, deploy-module, every
gen-server operation), if the entry exists with status ≠ running the
result is the NodeBadState error and no SSH I/O is performed. -/
theorem targeted_ops_nodeUnknown_nodeBadState (cfg : Config) (σ : Registry)
    (name : String) (hcfg : configOk cfg = true) :
    (lookupKey σ name = none →
      stopNode cfg σ name = ⟨.error .nodeUnknown, σ, []⟩ ∧
      (∀ io, restartNode cfg σ name io = ⟨.error .nodeUnknown, σ, []⟩) ∧
      (∀ rpc, inspectNode cfg σ name rpc = ⟨.error .nodeUnknown, σ, []⟩) ∧
      (∀ code lang now w rpc,
        deployModule cfg σ name code lang now w rpc = ⟨.error .nodeUnknown, σ, []⟩) ∧
      (∀ m args r rpc, atomNameOk m = true → (∀ x ∈ r, atomNameOk x = true) →
        startGenserver cfg σ name m args r rpc = ⟨.error .nodeUnknown, σ, []⟩) ∧
      (∀ s msg t rpc, atomNameOk s = true → 1 ≤ t → t ≤ 60000 →
        callGenserver cfg σ name s msg t rpc = ⟨.error .nodeUnknown, σ, []⟩) ∧
      (∀ s rpc, atomNameOk s = true →
        stopGenserver cfg σ name s rpc = ⟨.error .nodeUnknown, σ, []⟩)) ∧
    (∀ nd, lookupKey σ name = some nd → nd.status ≠ NodeStatus.running →
      (∀ rpc, inspectNode cfg σ name rpc = ⟨.error .nodeBadState, σ, []⟩) ∧
      (∀ code lang now w rpc,
        deployModule cfg σ name code lang now w rpc = ⟨.error .nodeBadState, σ, []⟩) ∧
      (∀ m args r rpc, atomNameOk m = true → (∀ x ∈ r, atomNameOk x = true) →
        startGenserver cfg σ name m args r rpc = ⟨.error .nodeBadState, σ, []⟩) ∧
      (∀ s msg t rpc, atomNameOk s = true → 1 ≤ t → t ≤ 60000 →
        callGenserver cfg σ name s msg t rpc = ⟨.error .nodeBadState, σ, []⟩) ∧
      (∀ s rpc, atomNameOk s = true →
        stopGenserver cfg σ name s rpc = ⟨.error .nodeBadState, σ, []⟩)) := by
  constructor
  · intro h
    refine ⟨?_, ?_, ?_, ?_, ?_, ?_, ?_⟩
    · simp [stopNode, hcfg, h]
    · intro io; simp [restartNode, hcfg, h]
    · intro rpc; simp [inspectNode, hcfg, h]
    · intro code lang now w rpc; simp [deployModule, hcfg, h]
    · intro m args r rpc hm hr
      cases r with
      | none => simp [startGenserver, hcfg, h, hm]
      | some x => simp [startGenserver, hcfg, h, hm, hr x rfl]
    · intro s msg t rpc hs h1 h2
      simp [callGenserver, hcfg, h, hs]
      omega
    · intro s rpc hs; simp [stopGenserver, hcfg, h, hs]
  · intro nd hnd hst
    refine ⟨?_, ?_, ?_, ?_, ?_⟩
    · intro rpc; simp [inspectNode, hcfg, hnd, hst]
    · intro code lang now w rpc; simp [deployModule, hcfg, hnd, hst]
    · intro m args r rpc hm hr
      cases r with
      | none => simp [startGenserver, hcfg, hnd, hst, hm]
      | some x => simp [startGenserver, hcfg, hnd, hst, hm, hr x rfl]
    · intro s msg t rpc hs h1 h2
      simp [callGenserver, hcfg, hnd, hst, hs]
      omega
    · intro s rpc hs; simp [stopGenserver, hcfg, hnd, hst, hs]

/-- Witness for C5 at concrete inputs: an unknown name yields
NodeUnknown with an empty SSH trace, and a stopped node yields
NodeBadState with an empty SSH trace. -/
theorem targeted_ops_nodeUnknown_nodeBadState_witness :
    stopNode cfgA [] ("w") = ⟨.error .nodeUnknown, [], []⟩ ∧
    inspectNode cfgA [(("w"), nodeStopped)] ("w") (.ok (("")))
      = ⟨.error .nodeBadState, [(("w"), nodeStopped)], []⟩ := by
  constructor
  · exact ((targeted_ops_nodeUnknown_nodeBadState cfgA [] ("w") (by decide)).1 rfl).1
  · exact (((targeted_ops_nodeUnknown_nodeBadState cfgA [(("w"), nodeStopped)] ("w")
      (by decide)).2) nodeStopped (by decide) (by decide)).1 (.ok (("")))

/-- **C6.** stop-node removes the registry entry synchronously:
immediately after a successful stop, the name is absent, a start with
the same name passes its duplicate-name check (never NameTaken), and a
second stop returns the NodeUnknown error. -/
theorem stopNode_frees_name (cfg : Config) (σ : Registry) (name : String)
    (nd : ManagedNode) (hcfg : configOk cfg = true)
    (hnd : lookupKey σ name = some nd) :
    (stopNode cfg σ name).result = .ok () ∧
    lookupKey (stopNode cfg σ name).registry name = none ∧
    stopNode cfg (stopNode cfg σ name).registry name
      = ⟨.error .nodeUnknown, (stopNode cfg σ name).registry, []⟩ ∧
    ∀ ty ck ha io,
      (startNode cfg (stopNode cfg σ name).registry name ty ck ha io).result
        ≠ .error .nameTaken := by
  have hstop : stopNode cfg σ name = ⟨.ok (), mapDelete σ name, []⟩ := by
    simp [stopNode, hcfg, hnd]
  refine ⟨by rw [hstop], ?_, ?_, ?_⟩
  · rw [hstop]; exact lookupKey_mapDelete_self σ name
  · rw [hstop]
    simp [stopNode, hcfg, lookupKey_mapDelete_self]
  · intro ty ck ha io
    rw [hstop]
    simp only [startNode, hcfg]
    cases hh : lookupKey cfg.sshHosts (jsOr ha (defaultHostLabel cfg)) with
    | none => simp
    | some hc =>
      simp only [lookupKey_mapDelete_self, Option.isSome_none, Bool.false_eq_true,
        if_false]
      cases hcn : io.connect with
      | error e => simp
      | ok u =>
        cases hsp : io.spawn with
        | error e => simp
        | ok ch => simp

/-- Witness for C6 at a concrete registry with one entry. -/
theorem stopNode_frees_name_witness :
    lookupKey (stopNode cfgA [(("w"), nodeRunning)] ("w")).registry ("w") = none ∧
    stopNode cfgA (stopNode cfgA [(("w"), nodeRunning)] ("w")).registry ("w")
      = ⟨.error .nodeUnknown, (stopNode cfgA [(("w"), nodeRunning)] ("w")).registry, []⟩ ∧
    (startNode cfgA (stopNode cfgA [(("w"), nodeRunning)] ("w")).registry ("w")
        .erlang none none ioA).result ≠ .error .nameTaken := by
  have h := stopNode_frees_name cfgA [(("w"), nodeRunning)] ("w") nodeRunning
    (by decide) (by decide)
  exact ⟨h.2.1, h.2.2.1, h.2.2.2 .erlang none none ioA⟩

/-- A configuration failing the guard (no hosts, empty key). -/
def cfgBad : Config := ⟨[], ("")⟩

/-- **C10.** start-node mutates the node registry only after the SSH
channel spawn succeeds: for every failing precheck or I/O step
(configuration guard, unknown host label, duplicate name, SSH connect
failure, channel-spawn failure), start-node returns the corresponding
error and the nodes map is exactly as it was before the call. -/
theorem startNode_error_frame (cfg : Config) (σ : Registry) (name : String)
    (ty : NodeType) (ck ha : Option String) (io : StartIo) :
    (∀ e, (startNode cfg σ name ty ck ha io).result = .error e →
      (startNode cfg σ name ty ck ha io).registry = σ) ∧
    (configOk cfg = false →
      startNode cfg σ name ty ck ha io = ⟨.error .configMissing, σ, []⟩) ∧
    (configOk cfg = true →
      lookupKey cfg.sshHosts (jsOr ha (defaultHostLabel cfg)) = none →
      startNode cfg σ name ty ck ha io = ⟨.error .unknownHost, σ, []⟩) ∧
    (∀ hc, configOk cfg = true →
      lookupKey cfg.sshHosts (jsOr ha (defaultHostLabel cfg)) = some hc →
      (lookupKey σ name).isSome = true →
      startNode cfg σ name ty ck ha io = ⟨.error .nameTaken, σ, []⟩) ∧
    (∀ hc msg, configOk cfg = true →
      lookupKey cfg.sshHosts (jsOr ha (defaultHostLabel cfg)) = some hc →
      (lookupKey σ name).isSome = false → io.connect = .error msg →
      startNode cfg σ name ty ck ha io = ⟨.error .sshDial, σ, []⟩) ∧
    (∀ hc u msg, configOk cfg = true →
      lookupKey cfg.sshHosts (jsOr ha (defaultHostLabel cfg)) = some hc →
      (lookupKey σ name).isSome = false → io.connect = .ok u →
      io.spawn = .error msg →
      (startNode cfg σ name ty ck ha io).result = .error .sshSpawn ∧
      (startNode cfg σ name ty ck ha io).registry = σ) := by
  refine ⟨?_, ?_, ?_, ?_, ?_, ?_⟩
  · intro e
    simp only [startNode]
    split
    · intro _; rfl
    · split
      · intro _; rfl
      · split
        · intro _; rfl
        · split
          · intro _; rfl
          · split
            · intro _; rfl
            · intro h; simp at h
  · intro h; simp [startNode, h]
  · intro hcfg hh; simp [startNode, hcfg, hh]
  · intro hc hcfg hh hs; simp [startNode, hcfg, hh, hs]
  · intro hc msg hcfg hh hs hcn; simp [startNode, hcfg, hh, hs, hcn]
  · intro hc u msg hcfg hh hs hcn hsp; simp [startNode, hcfg, hh, hs, hcn, hsp]

/-- Witness for C10: with nothing configured, start-node fails the
guard and leaves the (empty) registry untouched. -/
theorem startNode_error_frame_witness :
    startNode cfgBad [] ("w") .erlang none none ioA
      = ⟨.error .configMissing, [], []⟩ :=
  (startNode_error_frame cfgBad [] ("w") .erlang none none ioA).2.1 (by decide)

/-- An RPC oracle that always fails (unreachable node). -/
def oracleFail : String → Except String String := fun _ => .error ("unreachable")

/-- **C9.** list-nodes issues the process-count RPC only for nodes
whose status is exactly `running`; for every node, if the RPC fails or
its output does not parse as an integer the returned row has
processCount null; and the registry — every entry and every field —
is unchanged by list-nodes. -/
theorem listNodes_running_only_and_frame (cfg : Config) (σ : Registry)
    (oracle : String → Except String String) (hcfg : configOk cfg = true) :
    (listNodes cfg σ oracle).registry = σ ∧
    (∀ nm ck code hl t,
      SshOp.rpcPrinted nm ck code hl t ∈ (listNodes cfg σ oracle).sshOps →
      ∃ nd, (nm, nd) ∈ σ ∧ nd.status = NodeStatus.running) ∧
    ∃ views, (listNodes cfg σ oracle).result = .ok views ∧
      views.length = σ.length ∧
      ∀ i nm nd, σ.get? i = some (nm, nd) →
        ∃ v, views.get? i = some v ∧ v.name = nm ∧ v.type = nd.type ∧
          v.status = nd.status ∧ v.startedAt = nd.startedAt ∧
          (nd.status ≠ NodeStatus.running → v.processCount = none) ∧
          (∀ e, oracle nm = .error e → v.processCount = none) ∧
          (∀ r, oracle nm = .ok r → parseIntJS r.data = none →
            v.processCount = none) := by
  have hguard : (configOk cfg = false) = False := by simp [hcfg]
  refine ⟨?_, ?_, ?_⟩
  · simp [listNodes, hcfg]
  · intro nm ck code hl t hmem
    simp only [listNodes, hguard, if_false] at hmem
    rw [List.mem_map] at hmem
    obtain ⟨a, ha, hfa⟩ := hmem
    rw [List.mem_filter] at ha
    refine ⟨a.2, ?_, ?_⟩
    · have : a.1 = nm := by
        have := congrArg (fun op => match op with
          | SshOp.rpcPrinted x _ _ _ _ => x
          | _ => ("")) hfa
        simpa using this
      rw [← this]
      exact ha.1
    · have := ha.2
      simpa using this
  · have hmap : ((listNodes cfg σ oracle).result) = .ok (σ.map (fun e =>
        ⟨e.1, e.2.type, e.2.status, e.2.startedAt,
          if e.2.status = NodeStatus.running then
            match oracle e.1 with
            | .ok r => parseIntJS r.data
            | .error _ => none
          else none⟩)) := by
      simp [listNodes, hguard]
    refine ⟨_, hmap, by simp, ?_⟩
    intro i nm nd hi
    refine ⟨⟨nm, nd.type, nd.status, nd.startedAt,
        if nd.status = NodeStatus.running then
          match oracle nm with
          | .ok r => parseIntJS r.data
          | .error _ => none
        else none⟩, ?_, rfl, rfl, rfl, rfl, ?_, ?_, ?_⟩
    · show (σ.map _).get? i = _
      rw [List.get?_map, hi]
      rfl
    · intro hne; simp [hne]
    · intro e he
      by_cases hr : nd.status = NodeStatus.running
      · simp [hr, he]
      · simp [hr]
    · intro r hrr hp
      by_cases hr : nd.status = NodeStatus.running
      · simp [hr, hrr, hp]
      · simp [hr]

/-- Witness for C9: a stopped node is listed without any RPC and the
registry is returned unchanged. -/
theorem listNodes_running_only_and_frame_witness :
    (listNodes cfgA [(("w"), nodeStopped)] oracleFail).registry
      = [(("w"), nodeStopped)] :=
  (listNodes_running_only_and_frame cfgA [(("w"), nodeStopped)] oracleFail
    (by decide)).1

/-- **C2 (counterexample).** The claim "a probe outcome (pong, pang,
or a thrown SSH error) arriving when status is not `starting` leaves
the status unchanged" is false: with the entry `starting` when the 2 s
timer fires and `stopped` (its channel closed) when the SSH ping
throws, the catch branch still sets the status to `error`. -/
theorem probe_sshError_overwrites_stopped :
    probeGate [(("w"), nodeStarting)] ("w") = true ∧
    (lookupKey [(("w"), nodeStopped)] ("w")).map ManagedNode.status
      = some NodeStatus.stopped ∧
    probeCallback [(("w"), nodeStarting)] [(("w"), nodeStopped)] ("w") .sshFailure
      ≠ [(("w"), nodeStopped)] ∧
    (lookupKey (probeCallback [(("w"), nodeStarting)] [(("w"), nodeStopped)] ("w")
        .sshFailure) ("w")).map ManagedNode.status = some NodeStatus.error := by
  decide

/-- **C2 (amended).** A `pong` or `pang` probe outcome arriving when
the status is not `starting` leaves the registry unchanged (only
starting→running on pong and starting→error on pang are possible from
those outcomes), and a probe whose fire-time gate fails (entry absent
or already `stopped`), or whose entry is gone at resolution, changes
nothing; but a thrown SSH error sets the status of whatever entry
exists at resolution to `error`, regardless of that status. -/
theorem probe_status_transitions (σf σr : Registry) (name : String) :
    (∀ o, (o = ProbeOutcome.pong ∨ o = ProbeOutcome.pang) →
      (lookupKey σr name).map ManagedNode.status ≠ some NodeStatus.starting →
      probeCallback σf σr name o = σr) ∧
    (probeGate σf name = false → ∀ o, probeCallback σf σr name o = σr) ∧
    (lookupKey σr name = none → ∀ o, probeCallback σf σr name o = σr) ∧
    (∀ nd, probeGate σf name = true → lookupKey σr name = some nd →
      probeCallback σf σr name .sshFailure = setStatus σr name NodeStatus.error) ∧
    (∀ nd, probeGate σf name = true → lookupKey σr name = some nd →
      nd.status = NodeStatus.starting →
      probeCallback σf σr name .pong = setStatus σr name NodeStatus.running ∧
      probeCallback σf σr name .pang = setStatus σr name NodeStatus.error) := by
  refine ⟨?_, ?_, ?_, ?_, ?_⟩
  · intro o ho hne
    by_cases hg : probeGate σf name
    · rcases ho with h | h <;> subst h <;>
        (cases hl : lookupKey σr name with
        | none => simp [probeCallback, probeResolve, hg, hl]
        | some n =>
          have hns : n.status ≠ NodeStatus.starting := by
            intro hstt; exact hne (by simp [hl, hstt])
          simp [probeCallback, probeResolve, hg, hl, hns])
    · simp [probeCallback, hg]
  · intro hg o
    simp [probeCallback, hg]
  · intro hl o
    by_cases hg : probeGate σf name
    · cases o <;> simp [probeCallback, probeResolve, hg, hl]
    · simp [probeCallback, hg]
  · intro nd hg hl
    simp [probeCallback, probeResolve, hg, hl]
  · intro nd hg hl hst
    simp [probeCallback, probeResolve, hg, hl, hst]

/-- Witness for C2 (amended): a pang arriving on an already-stopped
entry is discarded at the fire-time gate. -/
theorem probe_status_transitions_witness :
    probeCallback [(("w"), nodeStopped)] [(("w"), nodeStopped)] ("w") .pang
      = [(("w"), nodeStopped)] :=
  (probe_status_transitions [(("w"), nodeStopped)] [(("w"), nodeStopped)]
    ("w")).2.1 (by decide) .pang

/-- A helper characterising a fully successful `start-node` call. -/
lemma startNode_ok_eq (cfg : Config) (σ : Registry) (name : String) (ty : NodeType)
    (ck ha : Option String) (io : StartIo) (hc : SSHHostConfig) (u : Unit) (ch : Nat)
    (hcfg : configOk cfg = true)
    (hh : lookupKey cfg.sshHosts (jsOr ha (defaultHostLabel cfg)) = some hc)
    (hfree : lookupKey σ name = none)
    (hcn : io.connect = .ok u) (hsp : io.spawn = .ok ch) :
    startNode cfg σ name ty ck ha io =
      ⟨.ok (),
        mapSet σ name
          ⟨ch, jsOr ha (defaultHostLabel cfg), hc.remoteShortHost, ty, io.now,
            jsOr ck io.defaultCookie, name, .starting⟩,
        [.execStream (buildStartCommand hc name (jsOr ck io.defaultCookie) ty)]⟩ := by
  simp [startNode, hcfg, hh, hfree, hcn, hsp]

/-- **C4 (counterexample).** The claim that after start;stop;start the
old channel's close event does not set the new entry's status to
`stopped` is false: the close handler looks the entry up by NAME only,
so delivering the first channel's (channel 1) close event after the
second start flips the new entry (channel 2) from `starting` to
`stopped`. -/
theorem startStopStart_stale_close_counterexample :
    lookupKey (startNode cfgA
        (stopNode cfgA (startNode cfgA [] ("w") .erlang none none ioA).registry
          ("w")).registry
        ("w") .erlang none none ioB).registry ("w")
      = some ⟨2, ("a"), ("sh"), .erlang, 200, ("ck"), ("w"), .starting⟩ ∧
    lookupKey (deliverClose (startNode cfgA
        (stopNode cfgA (startNode cfgA [] ("w") .erlang none none ioA).registry
          ("w")).registry
        ("w") .erlang none none ioB).registry ("w")) ("w")
      = some ⟨2, ("a"), ("sh"), .erlang, 200, ("ck"), ("w"), .stopped⟩ := by
  decide

/-- **C4 (amended).** start;stop;start is observationally equal to a
single start: after the stop the registry equals the original one, so
the second start call literally coincides with a fresh start (any
difference is confined to the oracle-supplied startedAt and channel
identity), and a close event delivered while the name is absent is a
no-op.  However, because the close handler looks the entry up by name
only, the old channel's close event delivered after the second start
sets the NEW entry's status to `stopped`. -/
theorem startStopStart_amended (cfg : Config) (σ : Registry) (name : String)
    (ty : NodeType) (ck ha : Option String) (io1 io2 : StartIo)
    (hc : SSHHostConfig) (u1 : Unit) (ch1 : Nat)
    (hcfg : configOk cfg = true)
    (hh : lookupKey cfg.sshHosts (jsOr ha (defaultHostLabel cfg)) = some hc)
    (hfree : lookupKey σ name = none)
    (hcn1 : io1.connect = .ok u1) (hsp1 : io1.spawn = .ok ch1) :
    (stopNode cfg (startNode cfg σ name ty ck ha io1).registry name).registry = σ ∧
    deliverClose (stopNode cfg (startNode cfg σ name ty ck ha io1).registry
      name).registry name
      = (stopNode cfg (startNode cfg σ name ty ck ha io1).registry name).registry ∧
    startNode cfg
        (stopNode cfg (startNode cfg σ name ty ck ha io1).registry name).registry
        name ty ck ha io2
      = startNode cfg σ name ty ck ha io2 ∧
    (∀ nd, lookupKey (startNode cfg σ name ty ck ha io2).registry name = some nd →
      lookupKey (deliverClose (startNode cfg σ name ty ck ha io2).registry name) name
        = some { nd with status := NodeStatus.stopped }) := by
  have h1 := startNode_ok_eq cfg σ name ty ck ha io1 hc u1 ch1 hcfg hh hfree hcn1 hsp1
  have hreg1 : (startNode cfg σ name ty ck ha io1).registry
      = mapSet σ name
          ⟨ch1, jsOr ha (defaultHostLabel cfg), hc.remoteShortHost, ty, io1.now,
            jsOr ck io1.defaultCookie, name, .starting⟩ := by rw [h1]
  have hstop : (stopNode cfg (startNode cfg σ name ty ck ha io1).registry name).registry
      = σ := by
    rw [hreg1]
    simp [stopNode, hcfg, lookupKey_mapSet_self]
    exact mapDelete_mapSet_of_none _ hfree
  refine ⟨hstop, ?_, by rw [hstop], ?_⟩
  · rw [hstop]
    exact setStatus_of_none _ hfree
  · intro nd hnd
    unfold deliverClose
    rw [lookupKey_setStatus_self, hnd]
    rfl

/-- Witness for C4 (amended): with the concrete fixtures, the stop
after the first start restores the empty registry. -/
theorem startStopStart_amended_witness :
    (stopNode cfgA (startNode cfgA [] ("w") .erlang none none ioA).registry
      ("w")).registry = [] :=
  (startStopStart_amended cfgA [] ("w") .erlang none none ioA ioB hostA () 1
    (by decide) (by decide) (by decide) (by decide) (by decide)).1

/-- **C1 (counterexample).** The claim that every caller-supplied name
destined to become an embedded Erlang atom — including the node name
of start-node — is checked against the atom regex before any remote
command is issued is false: `"bad name"` fails the regex, yet
start-node succeeds and issues the SSH spawn command with the name
interpolated verbatim. -/
theorem startNode_unvalidated_name_counterexample :
    atomNameOk ("bad name") = false ∧
    (startNode cfgA [] ("bad name") .erlang none none ioA).result = .ok () ∧
    (startNode cfgA [] ("bad name") .erlang none none ioA).sshOps
      = [.execStream ("erl -sname bad name -setcookie ck -noshell")] := by
  decide

/-- **C1 (amended).** The gen-server `module`, `registerAs` and
`server` arguments are schema-validated against the atom regex, and on
violation the operation is rejected with no SSH I/O; but the node name
of start-node (and hence restart-node, which reuses it) is NOT
validated: whatever string it is, once the prechecks pass it is
embedded verbatim in the issued spawn command. -/
theorem atomValidation_amended :
    (∀ (cfg : Config) (σ : Registry) (name m args : String) (r : Option String)
      (rpc : Except String String), atomNameOk m = false →
      startGenserver cfg σ name m args r rpc = ⟨.error .badAtomName, σ, []⟩) ∧
    (∀ (cfg : Config) (σ : Registry) (name m args x : String)
      (rpc : Except String String), atomNameOk x = false →
      startGenserver cfg σ name m args (some x) rpc = ⟨.error .badAtomName, σ, []⟩) ∧
    (∀ (cfg : Config) (σ : Registry) (name s msg : String) (t : Nat)
      (rpc : Except String String), atomNameOk s = false →
      callGenserver cfg σ name s msg t rpc = ⟨.error .badAtomName, σ, []⟩) ∧
    (∀ (cfg : Config) (σ : Registry) (name s : String)
      (rpc : Except String String), atomNameOk s = false →
      stopGenserver cfg σ name s rpc = ⟨.error .badAtomName, σ, []⟩) ∧
    (∀ (cfg : Config) (σ : Registry) (name : String) (ty : NodeType)
      (ck ha : Option String) (io : StartIo) (hc : SSHHostConfig) (u : Unit) (ch : Nat),
      configOk cfg = true →
      lookupKey cfg.sshHosts (jsOr ha (defaultHostLabel cfg)) = some hc →
      lookupKey σ name = none → io.connect = .ok u → io.spawn = .ok ch →
      (startNode cfg σ name ty ck ha io).sshOps
        = [.execStream (buildStartCommand hc name (jsOr ck io.defaultCookie) ty)]) := by
  refine ⟨?_, ?_, ?_, ?_, ?_⟩
  · intro cfg σ name m args r rpc hm
    simp [startGenserver, hm]
  · intro cfg σ name m args x rpc hx
    by_cases hm : atomNameOk m = false
    · simp [startGenserver, hm]
    · rw [Bool.not_eq_false] at hm
      simp [startGenserver, hm, hx]
  · intro cfg σ name s msg t rpc hs
    simp [callGenserver, hs]
  · intro cfg σ name s rpc hs
    simp [stopGenserver, hs]
  · intro cfg σ name ty ck ha io hc u ch hcfg hh hfree hcn hsp
    rw [startNode_ok_eq cfg σ name ty ck ha io hc u ch hcfg hh hfree hcn hsp]

/-- Witness for C1 (amended): a gen-server start with an invalid
module atom is rejected by the schema with no SSH I/O. -/
theorem atomValidation_amended_witness :
    startGenserver cfgA [] ("w") ("bad name") ("[]") none (.ok (("")))
      = ⟨.error .badAtomName, [], []⟩ :=
  atomValidation_amended.1 cfgA [] ("w") ("bad name") ("[]") none (.ok (("")))
    (by decide)

/-- **C8 (counterexample).** The claim that the generated expression
is literally `gen_server:call('<server>', <message>, t)` is false for
a message containing a newline: the source applies
`.replace(/\n/g, " ")` to the interpolated template, so the newline
inside the caller's message is replaced by a space. -/
theorem callGenserver_newline_counterexample :
    callGsCode ("c") ("\x7ba,\n1\x7d") 1
      = ("gen_server:call(\x27c\x27, \x7ba, 1\x7d, 1)") ∧
    callGsCode ("c") ("\x7ba,\n1\x7d") 1
      ≠ ("gen_server:call(\x27c\x27, \x7ba,\n1\x7d, 1)") := by
  decide

/-- **C8 (amended).** For every call-genserver invocation with call
timeout `t ∈ [1, 60000]` ms against a running node, the SSH timeout
passed to the remote execution equals `max(t + 5000, 10000)` ms —
hence is always at least 10 s and always strictly greater than `t` —
and the generated expression is
`gen_server:call('<server>', <message'>, t)` where `<message'>` is the
caller's message with each newline replaced by a space (identical to
the message whenever it contains no newline, since `replaceNewlines`
is the identity on newline-free strings). -/
theorem callGenserver_timeout_amended (cfg : Config) (σ : Registry)
    (name server message : String) (t : Nat) (rpc : Except String String)
    (nd : ManagedNode) (h1 : 1 ≤ t) (h2 : t ≤ 60000)
    (hs : atomNameOk server = true) (hcfg : configOk cfg = true)
    (hnd : lookupKey σ name = some nd) (hrun : nd.status = NodeStatus.running) :
    (callGenserver cfg σ name server message t rpc).sshOps
      = [.rpcPrinted name nd.cookie (callGsCode server message t) nd.hostLabel
          (max (t + 5000) 10000)] ∧
    10000 ≤ max (t + 5000) 10000 ∧
    t < max (t + 5000) 10000 ∧
    callGsCode server message t = replaceNewlines
      (("gen_server:call(\x27") ++ server ++ ("\x27, ") ++ message ++ (", ")
        ++ toString t ++ (")")) ∧
    (∀ s : String, (∀ c ∈ s.data, ¬ c = '\n') → replaceNewlines s = s) := by
  refine ⟨?_, le_max_right _ _, ?_, rfl, ?_⟩
  · have ht0 : ¬(t = 0 ∨ 60000 < t) := by omega
    cases rpc with
    | error e =>
      simp [callGenserver, hs, hcfg, hnd, hrun, ht0]
    | ok v =>
      simp [callGenserver, hs, hcfg, hnd, hrun, ht0]
  · calc t < t + 5000 := by omega
      _ ≤ max (t + 5000) 10000 := le_max_left _ _
  · intro s hnl
    unfold replaceNewlines
    have : s.data.map (fun c => if c = '\n' then ' ' else c) = s.data := by
      conv_rhs => rw [← List.map_id s.data]
      exact List.map_congr_left (fun a ha => by simp [hnl a ha])
    rw [this]

/-- Witness for C8 (amended): at `t = 1` the SSH timeout is
`max(6000, 10000)`. -/
theorem callGenserver_timeout_amended_witness :
    (callGenserver cfgA [(("w"), nodeRunning)] ("w") ("c") ("get") 1
        (.ok (("")))).sshOps
      = [.rpcPrinted ("w") ("ck") (callGsCode ("c") ("get") 1) ("a")
          (max (1 + 5000) 10000)] :=
  (callGenserver_timeout_amended cfgA [(("w"), nodeRunning)] ("w") ("c") ("get") 1
    (.ok ((""))) nodeRunning (by decide) (by decide) (by decide) (by decide)
    (by decide) (by decide)).1

end Beam
